import Mathlib

/-
A shallow embedding of `dalymi/resources.py`: the `Resource` capability
contract (location templating, check/load/save/delete wrappers, integrity
assertions), the `LocalFileMixin` local-file behavior bundle, and the two
concrete resource kinds `PandasDF`/`PandasCSV` (tabular) and `Pickle` (blob).

Python exceptions are modelled by the `PyError` type; fallible operations
return `Except PyError`.  The local filesystem is modelled by an explicit
`FS` state (an association list of regular files plus a list of existing
directories) threaded through every stateful operation.  Machine-level
details of the external pandas/pickle serializers are out of scope of the
source file (they are library calls); their observable behavior is modelled
from the spec where noted.
-/

namespace Dalymi

/-- Python exceptions that the embedded code can raise. -/
inductive PyError where
  | keyError : String → PyError
  | notImplementedError : String → PyError
  | assertionError : String → PyError
  | typeError : String → PyError
  | fileNotFoundError : String → PyError
  | isADirectoryError : String → PyError
  | fileExistsError : String → PyError
deriving DecidableEq, Repr

/-- The message / payload carried by an exception. -/
def PyError.message : PyError → String
  | .keyError s => s
  | .notImplementedError s => s
  | .assertionError s => s
  | .typeError s => s
  | .fileNotFoundError s => s
  | .isADirectoryError s => s
  | .fileExistsError s => s

/-- Whether the exception is a backend I/O error (an `OSError` in Python),
as opposed to a capability / integrity / context failure. -/
def PyError.isIOError : PyError → Bool
  | .fileNotFoundError _ => true
  | .isADirectoryError _ => true
  | .fileExistsError _ => true
  | _ => false

/-- The context mapping supplied by the orchestrator: string keys to string
values (a Python `dict` passed as `**context`). -/
abbrev Context := List (String × String)

/-- One segment of a location template: either literal text or a named
`\x7bkey\x7d` placeholder.  This is the parsed form of the `loc` format
string consumed by Python's `str.format`. -/
inductive Seg where
  | lit : String → Seg
  | ph : String → Seg
deriving DecidableEq, Repr

/-- A location template: the parsed `loc` format string. -/
abbrev Template := List Seg

/-- The placeholder keys occurring in a template, in order. -/
def Template.placeholders : Template → List String
  | [] => []
  | .lit _ :: t => Template.placeholders t
  | .ph k :: t => k :: Template.placeholders t

/-- Embeds `self.loc.format(**context)`: substitutes every placeholder with
its value from the context; raises `KeyError` at the first placeholder whose
key is absent from the context. -/
def Template.format : Template → Context → Except PyError String
  | [], _ => .ok ""
  | .lit s :: t, c =>
    match Template.format t c with
    | .ok r => .ok (s ++ r)
    | .error e => .error e
  | .ph k :: t, c =>
    match c.lookup k with
    | some v =>
      match Template.format t c with
      | .ok r => .ok (v ++ r)
      | .error e => .error e
    | none => .error (.keyError k)

/-- Renders a template with a total substitution function (specification
device used to state what successful formatting produces). -/
def Template.render : Template → (String → String) → String
  | [], _ => ""
  | .lit s :: t, f => s ++ Template.render t f
  | .ph k :: t, f => f k ++ Template.render t f

/-- The modelled local filesystem: regular files (path ↦ content) and the
set of existing directories. -/
structure FS (ω : Type) where
  files : List (String × ω)
  dirs : List String
deriving DecidableEq

/-- Well-formed filesystem: no duplicate file paths, no duplicate directory
entries, and no path that is simultaneously a file and a directory. -/
def FS.WF {ω : Type} (fs : FS ω) : Prop :=
  (fs.files.map Prod.fst).Nodup ∧ fs.dirs.Nodup ∧
    ∀ p ∈ fs.dirs, fs.files.lookup p = none

instance {ω : Type} [DecidableEq ω] (fs : FS ω) : Decidable fs.WF := by
  unfold FS.WF; infer_instance

/-- Embeds `os.path.isfile(path)`: a regular file exists at the path. -/
def FS.isFile {ω : Type} (fs : FS ω) (path : String) : Bool :=
  (fs.files.lookup path).isSome

/-- Embeds opening a path for writing and writing content to it: fails if a
directory occupies the path, otherwise creates or replaces the file. -/
def FS.write {ω : Type} (fs : FS ω) (path : String) (content : ω) :
    Except PyError (FS ω) :=
  if path ∈ fs.dirs then .error (.isADirectoryError path)
  else .ok { fs with files := (path, content) :: fs.files.eraseP (fun kv => kv.1 == path) }

/-- Embeds `os.remove(path)`: removes the regular file at the path; raises
`FileNotFoundError` if nothing is there and `IsADirectoryError` if the path
names a directory. -/
def osRemove {ω : Type} (path : String) (fs : FS ω) : Except PyError (FS ω) :=
  if (fs.files.lookup path).isSome then
    .ok { fs with files := fs.files.eraseP (fun kv => kv.1 == path) }
  else if path ∈ fs.dirs then .error (.isADirectoryError path)
  else .error (.fileNotFoundError path)

/-- Drops trailing occurrences of a character from a character list. -/
def dropTrailing (c : Char) (l : List Char) : List Char :=
  (l.reverse.dropWhile (fun x => x = c)).reverse

/-- Embeds `os.path.dirname(path)` (POSIX): everything up to the final
slash, with trailing slashes stripped unless the head is all slashes. -/
def dirname (p : String) : String :=
  let l := p.toList
  match l.reverse.findIdx? (fun x => x = '/') with
  | none => ""
  | some r =>
    let head := l.take (l.length - r)
    if head.all (fun x => x = '/') then String.mk head
    else String.mk (dropTrailing '/' head)

/-- Splits a character list at every occurrence of a separator. -/
def splitCharsOn (c : Char) : List Char → List (List Char)
  | [] => [[]]
  | x :: xs =>
    if x = c then [] :: splitCharsOn c xs
    else
      match splitCharsOn c xs with
      | [] => [[x]]
      | h :: t => (x :: h) :: t

/-- The nonempty `/`-separated components of a path. -/
def splitParts (p : String) : List String :=
  ((splitCharsOn '/' p.toList).filter (fun l => l ≠ [])).map String.mk

/-- Joins successive components onto a growing base, listing every
intermediate path. -/
def joinsFrom (base : String) : List String → List String
  | [] => []
  | y :: ys => (base ++ y) :: joinsFrom (base ++ y ++ "/") ys

/-- The ancestor chain of a path: for components `a/b/c` this is
`a`, `a/b`, `a/b/c`. -/
def ancestors (p : String) : List String :=
  joinsFrom "" (splitParts p)

/-- Creates each listed directory if absent (`exist_ok=True` semantics);
raises if a regular file already occupies one of the paths. -/
def mkdirAll {ω : Type} (fs : FS ω) : List String → Except PyError (FS ω)
  | [] => .ok fs
  | d :: ds =>
    if (fs.files.lookup d).isSome then .error (.fileExistsError d)
    else if d ∈ fs.dirs then mkdirAll fs ds
    else mkdirAll { fs with dirs := d :: fs.dirs } ds

/-- Embeds `os.makedirs(path, exist_ok=True)`: recursively creates the
missing directories along the path. -/
def osMakedirs {ω : Type} (path : String) (fs : FS ω) : Except PyError (FS ω) :=
  mkdirAll fs (ancestors path)

/-- Embeds `Resource.assert_integrity(data)`: runs each assertion in order;
the first one that raises aborts the loop with its error. -/
def assert_integrity {D : Type} (assertions : List (D → Except PyError Unit))
    (data : D) : Except PyError Unit :=
  match assertions with
  | [] => .ok ()
  | a :: rest =>
    match a data with
    | .ok _ => assert_integrity rest data
    | .error e => .error e

/-- A resource object: the state of a constructed `Resource` instance
together with the methods supplied by its (sub)class.  `D` is the type of
the in-memory data value, `ω` the type of stored file contents. -/
structure Resource (D : Type) (ω : Type) where
  name : String
  loc : Template
  assertions : List (D → Except PyError Unit)
  check : String → FS ω → Except PyError Bool
  delete : String → FS ω → Except PyError (FS ω)
  load : String → FS ω → Except PyError D
  save : String → D → FS ω → Except PyError (FS ω)

/-- The message raised by the four unimplemented-capability stubs in the
`Resource` base class. -/
def notImplementedMsg (op name : String) : String :=
  "Could not *" ++ op ++ "* resource <" ++ name ++ "> (and possibly others), " ++
    "because the resource class has no implementation of the `" ++ op ++ "` method."

/-- A plain `Resource(name, loc, assertions)` instance: all four capability
methods are the base-class stubs raising `NotImplementedError`. -/
def Resource.base {D ω : Type} (name : String) (loc : Template)
    (assertions : List (D → Except PyError Unit)) : Resource D ω where
  name := name
  loc := loc
  assertions := assertions
  check := fun _ _ => .error (.notImplementedError (notImplementedMsg "check" name))
  delete := fun _ _ => .error (.notImplementedError (notImplementedMsg "delete" name))
  load := fun _ _ => .error (.notImplementedError (notImplementedMsg "load" name))
  save := fun _ _ _ => .error (.notImplementedError (notImplementedMsg "save" name))

/-- Embeds `Resource._check(context)`: resolve the path, then delegate to
the kind's `check`. -/
def Resource.checkCtx {D ω : Type} (r : Resource D ω) (context : Context)
    (fs : FS ω) : Except PyError Bool := do
  let path ← r.loc.format context
  r.check path fs

/-- Embeds `Resource._delete(context)`: resolve the path, then delegate to
the kind's `delete`. -/
def Resource.deleteCtx {D ω : Type} (r : Resource D ω) (context : Context)
    (fs : FS ω) : Except PyError (FS ω) := do
  let path ← r.loc.format context
  r.delete path fs

/-- Embeds `Resource._load(context)`: resolve the path, delegate to the
kind's `load`, run the integrity assertions on the result, return it. -/
def Resource.loadCtx {D ω : Type} (r : Resource D ω) (context : Context)
    (fs : FS ω) : Except PyError D := do
  let path ← r.loc.format context
  let data ← r.load path fs
  assert_integrity r.assertions data
  return data

/-- Embeds `Resource._save(data, context)`: run the integrity assertions on
the data first, then resolve the path and delegate to the kind's `save`. -/
def Resource.saveCtx {D ω : Type} (r : Resource D ω) (data : D)
    (context : Context) (fs : FS ω) : Except PyError (FS ω) := do
  assert_integrity r.assertions data
  let path ← r.loc.format context
  r.save path data fs

/-- The backing store as the caller observes it after a save attempt: the
new store on success, the untouched store when the operation raised. -/
def Resource.saveStore {D ω : Type} (r : Resource D ω) (data : D)
    (context : Context) (fs : FS ω) : FS ω :=
  match r.saveCtx data context fs with
  | .ok fs' => fs'
  | .error _ => fs

/-- The backing store as the caller observes it after a delete attempt. -/
def Resource.deleteStore {D ω : Type} (r : Resource D ω) (context : Context)
    (fs : FS ω) : FS ω :=
  match r.deleteCtx context fs with
  | .ok fs' => fs'
  | .error _ => fs

/-- Embeds `LocalFileMixin.check(path)`, i.e. `os.path.isfile(path)`. -/
def LocalFileMixin.check {ω : Type} (path : String) (fs : FS ω) :
    Except PyError Bool :=
  .ok (fs.isFile path)

/-- Embeds `LocalFileMixin.delete(path)`, i.e. `os.remove(path)`. -/
def LocalFileMixin.delete {ω : Type} (path : String) (fs : FS ω) :
    Except PyError (FS ω) :=
  osRemove path fs

/-- Embeds `LocalFileMixin.makedirs(path)`: `dirs = os.path.dirname(path)`,
and if `dirs` is nonempty, `os.makedirs(dirs, exist_ok=True)`. -/
def LocalFileMixin.makedirs {ω : Type} (path : String) (fs : FS ω) :
    Except PyError (FS ω) :=
  let dirs := dirname path
  if dirs = "" then .ok fs else osMakedirs dirs fs

/-- The opaque in-memory tabular value (a pandas DataFrame as this layer
observes it): an ordered list of column names and rows of cell values. -/
structure DF where
  columns : List String
  rows : List (List String)
deriving DecidableEq, Repr

/-- Boolean test for `set(xs) == set(ys)` on Python lists of strings. -/
def listSetEq (xs ys : List String) : Bool :=
  xs.all (fun x => ys.contains x) && ys.all (fun y => xs.contains y)

/-- Embeds `PandasDF.assert_columns(df)` for an instance with the given
`name` and `columns` attributes.  When `columns` is declared and the column
sets differ, the source's `assert` statement evaluates its message
expression, which calls `set(df.columns, set(self.columns))` — a `set`
call with two arguments — so a `TypeError` is raised while building the
message, before any `AssertionError` can be raised. -/
def PandasDF.assert_columns (name : String) (columns : Option (List String))
    (df : DF) : Except PyError Unit :=
  match columns with
  | none => .ok ()
  | some cs =>
    if listSetEq df.columns cs then .ok ()
    else .error (.typeError "set expected at most 1 argument, got 2")

/-- Embeds `PandasDF.__init__`: prepends the bound `assert_columns` to the
caller-supplied assertions, then initializes the base `Resource`.  The
four capability methods stay the base-class stubs (PandasDF itself adds
none). -/
def PandasDF.make {ω : Type} (name : String) (loc : Template)
    (columns : Option (List String))
    (assertions : List (DF → Except PyError Unit)) : Resource DF ω :=
  Resource.base name loc (PandasDF.assert_columns name columns :: assertions)

/-- Stored contents of a CSV file, modelled from the spec: delimited text
as its list of lines, each line a list of fields (header row first). -/
abbrev CSVData := List (List String)

/-- Modelled from the spec: `pandas.read_csv(path)` parses delimited text
whose header row carries the column names and whose remaining rows are the
data rows. -/
def read_csv (content : CSVData) : DF :=
  match content with
  | [] => { columns := [], rows := [] }
  | h :: t => { columns := h, rows := t }

/-- Modelled from the spec: `DataFrame.to_csv(path, index=index)` writes a
header row of column names followed by the data rows; with `index=True` a
row-index column is prepended, with `index=False` it is not. -/
def to_csv (df : DF) (index : Bool) : CSVData :=
  if index then
    ("" :: df.columns) :: df.rows.enum.map (fun p => toString p.1 :: p.2)
  else df.columns :: df.rows

/-- Embeds `PandasCSV.load(path)`: `pd.read_csv(path)` on the file at the
resolved path. -/
def PandasCSV.load (path : String) (fs : FS CSVData) : Except PyError DF :=
  match fs.files.lookup path with
  | some content => .ok (read_csv content)
  | none => .error (.fileNotFoundError path)

/-- Embeds `PandasCSV.save(path, data)`: `self.makedirs(path)` then
`data.to_csv(path, index=False)`. -/
def PandasCSV.save (path : String) (df : DF) (fs : FS CSVData) :
    Except PyError (FS CSVData) := do
  let fs ← LocalFileMixin.makedirs path fs
  fs.write path (to_csv df false)

/-- Embeds a `PandasCSV(name, loc, columns, assertions)` instance: the
`PandasDF` initializer (which prepends `assert_columns`), with `check` and
`delete` taken from `LocalFileMixin` (it precedes `PandasDF` in the MRO)
and the class's own `load`/`save`. -/
def PandasCSV.make (name : String) (loc : Template)
    (columns : Option (List String))
    (assertions : List (DF → Except PyError Unit)) : Resource DF CSVData :=
  { (PandasDF.make name loc columns assertions : Resource DF CSVData) with
    check := LocalFileMixin.check
    delete := LocalFileMixin.delete
    load := PandasCSV.load
    save := PandasCSV.save }

/-- Embeds `Pickle.load(path)`: deserializing the blob stored at the path.
Modelled from the spec: the pickle encoding round-trips value-for-value,
so a stored blob is modelled by the value it decodes to. -/
def Pickle.load {D : Type} (path : String) (fs : FS D) : Except PyError D :=
  match fs.files.lookup path with
  | some v => .ok v
  | none => .error (.fileNotFoundError path)

/-- Embeds `Pickle.save(path, data)`: `self.makedirs(path)` then dumping
the value to the file at the path. -/
def Pickle.save {D : Type} (path : String) (data : D) (fs : FS D) :
    Except PyError (FS D) := do
  let fs ← LocalFileMixin.makedirs path fs
  fs.write path data

/-- Embeds a `Pickle(name, loc, assertions)` instance: the base `Resource`
initializer, with `check`/`delete` from `LocalFileMixin` and the class's
own `load`/`save`. -/
def Pickle.make {D : Type} (name : String) (loc : Template)
    (assertions : List (D → Except PyError Unit)) : Resource D D :=
  { (Resource.base name loc assertions : Resource D D) with
    check := LocalFileMixin.check
    delete := LocalFileMixin.delete
    load := Pickle.load
    save := Pickle.save }

/- Helper lemmas about template formatting. -/

lemma all_present_of_format_ok (t : Template) (c : Context) (s : String)
    (h : Template.format t c = .ok s) :
    ∀ k ∈ t.placeholders, (c.lookup k).isSome = true := by
  induction t generalizing s with
  | nil => intro k hk; simp [Template.placeholders] at hk
  | cons seg rest ih =>
    cases seg with
    | lit s' =>
      intro k hk
      simp only [Template.placeholders] at hk
      cases hf : Template.format rest c with
      | ok r => exact ih r hf k hk
      | error e => rw [Template.format, hf] at h; cases h
    | ph key =>
      intro k hk
      simp only [Template.placeholders, List.mem_cons] at hk
      cases hl : c.lookup key with
      | none => rw [Template.format, hl] at h; cases h
      | some v =>
        rcases hk with rfl | hk
        · simp [hl]
        · cases hf : Template.format rest c with
          | ok r => exact ih r hf k hk
          | error e => rw [Template.format, hl, hf] at h; cases h

lemma format_ok_of_all_present (t : Template) (c : Context)
    (h : ∀ k ∈ t.placeholders, (c.lookup k).isSome = true) :
    Template.format t c = .ok (t.render (fun k => (c.lookup k).getD "")) := by
  induction t with
  | nil => rfl
  | cons seg rest ih =>
    cases seg with
    | lit s' =>
      have hr := ih (fun k hk => h k (by simp [Template.placeholders, hk]))
      rw [Template.format, hr]; rfl
    | ph key =>
      have hkey := h key (by simp [Template.placeholders])
      cases hl : c.lookup key with
      | none => rw [hl] at hkey; cases hkey
      | some v =>
        have hr := ih (fun k hk => h k (by simp [Template.placeholders, List.mem_cons, hk]))
        rw [Template.format, hl, hr]
        simp [Template.render, hl]

lemma format_error_elim (t : Template) (c : Context) (e : PyError)
    (h : Template.format t c = .error e) :
    ∃ k, k ∈ t.placeholders ∧ c.lookup k = none ∧ e = PyError.keyError k := by
  induction t with
  | nil => cases h
  | cons seg rest ih =>
    cases seg with
    | lit s' =>
      cases hf : Template.format rest c with
      | ok r => rw [Template.format, hf] at h; cases h
      | error e' =>
        rw [Template.format, hf] at h
        cases h
        obtain ⟨k, hk, hl, he⟩ := ih hf
        exact ⟨k, by simp [Template.placeholders, hk], hl, he⟩
    | ph key =>
      cases hl : c.lookup key with
      | none =>
        rw [Template.format, hl] at h
        cases h
        exact ⟨key, by simp [Template.placeholders], hl, rfl⟩
      | some v =>
        cases hf : Template.format rest c with
        | ok r => rw [Template.format, hl, hf] at h; cases h
        | error e' =>
          rw [Template.format, hl, hf] at h
          cases h
          obtain ⟨k, hk, hl', he⟩ := ih hf
          exact ⟨k, by simp [Template.placeholders, hk], hl', he⟩

lemma format_agree (t : Template) (c c' : Context)
    (h : ∀ k ∈ t.placeholders, c'.lookup k = c.lookup k) :
    Template.format t c' = Template.format t c := by
  induction t with
  | nil => rfl
  | cons seg rest ih =>
    cases seg with
    | lit s' =>
      have hr := ih (fun k hk => h k (by simp [Template.placeholders, hk]))
      rw [Template.format, Template.format, hr]
    | ph key =>
      have hkey := h key (by simp [Template.placeholders])
      have hr := ih (fun k hk => h k (by simp [Template.placeholders, List.mem_cons, hk]))
      rw [Template.format, Template.format, hkey, hr]

/- Helper lemmas about the assertion pipeline. -/

lemma assert_integrity_ok {D : Type} (as : List (D → Except PyError Unit))
    (d : D) (h : ∀ a ∈ as, a d = .ok ()) : assert_integrity as d = .ok () := by
  induction as with
  | nil => rfl
  | cons a rest ih =>
    have ha : a d = .ok () := h a (by simp)
    rw [assert_integrity, ha]
    exact ih (fun b hb => h b (by simp [hb]))

lemma assert_integrity_fail {D : Type} (pre post : List (D → Except PyError Unit))
    (a : D → Except PyError Unit) (d : D) (e : PyError)
    (hpre : ∀ b ∈ pre, b d = .ok ()) (ha : a d = .error e) :
    assert_integrity (pre ++ a :: post) d = .error e := by
  induction pre with
  | nil => rw [List.nil_append, assert_integrity, ha]
  | cons b rest ih =>
    have hb : b d = .ok () := hpre b (by simp)
    rw [List.cons_append, assert_integrity, hb]
    exact ih (fun b' hb' => hpre b' (by simp [hb']))

/- Helper lemmas about lookup and erasure in the modelled filesystem. -/

lemma lookup_eq_none_of_not_mem {β : Type} (l : List (String × β)) (a : String)
    (h : a ∉ l.map Prod.fst) : l.lookup a = none := by
  induction l with
  | nil => rfl
  | cons kv t ih =>
    obtain ⟨k, v⟩ := kv
    simp only [List.map_cons, List.mem_cons, not_or] at h
    rw [List.lookup_cons]
    have : (a == k) = false := by
      simp only [beq_eq_false_iff_ne, ne_eq]
      exact fun hak => h.1 (by rw [hak])
    rw [this]
    exact ih h.2

lemma lookup_eraseP_self {β : Type} (l : List (String × β)) (a : String)
    (h : (l.map Prod.fst).Nodup) :
    (l.eraseP (fun kv => kv.1 == a)).lookup a = none := by
  induction l with
  | nil => rfl
  | cons kv t ih =>
    obtain ⟨k, v⟩ := kv
    simp only [List.map_cons, List.nodup_cons] at h
    by_cases hk : k = a
    · subst hk
      rw [List.eraseP_cons, show ((k, v).1 == k) = true by simp]
      exact lookup_eq_none_of_not_mem t k h.1
    · rw [List.eraseP_cons, show ((k, v).1 == a) = false by simp [hk]]
      rw [cond_false, List.lookup_cons]
      have : (a == k) = false := by
        simp only [beq_eq_false_iff_ne, ne_eq]
        exact fun hak => hk (by rw [hak])
      rw [this]
      exact ih h.2

/- Helper lemmas about directory creation. -/

lemma ancestors_empty : ancestors "" = [] := rfl

lemma mkdirAll_ok {ω : Type} (ds : List String) (fs : FS ω)
    (h : ∀ d ∈ ds, fs.files.lookup d = none) :
    ∃ fs', mkdirAll fs ds = .ok fs' ∧ fs'.files = fs.files ∧
      ∀ x, x ∈ fs'.dirs ↔ (x ∈ fs.dirs ∨ x ∈ ds) := by
  induction ds generalizing fs with
  | nil => exact ⟨fs, rfl, rfl, fun x => by simp⟩
  | cons d rest ih =>
    have hd : fs.files.lookup d = none := h d (by simp)
    rw [mkdirAll, hd]
    simp only [Option.isSome_none, Bool.false_eq_true, if_false]
    by_cases hmem : d ∈ fs.dirs
    · rw [if_pos hmem]
      obtain ⟨fs', h1, h2, h3⟩ := ih fs (fun x hx => h x (by simp [hx]))
      refine ⟨fs', h1, h2, fun x => ?_⟩
      rw [h3]
      constructor
      · rintro (hx | hx)
        · exact Or.inl hx
        · exact Or.inr (by simp [hx])
      · rintro (hx | hx)
        · exact Or.inl hx
        · rcases List.mem_cons.mp hx with rfl | hx
          · exact Or.inl hmem
          · exact Or.inr hx
    · rw [if_neg hmem]
      obtain ⟨fs', h1, h2, h3⟩ :=
        ih { fs with dirs := d :: fs.dirs } (fun x hx => h x (by simp [hx]))
      refine ⟨fs', h1, h2, fun x => ?_⟩
      rw [h3]
      simp only [List.mem_cons]
      tauto

lemma mkdirAll_noop {ω : Type} (ds : List String) (fs : FS ω)
    (h : ∀ d ∈ ds, fs.files.lookup d = none ∧ d ∈ fs.dirs) :
    mkdirAll fs ds = .ok fs := by
  induction ds with
  | nil => rfl
  | cons d rest ih =>
    obtain ⟨hd, hmem⟩ := h d (by simp)
    rw [mkdirAll, hd]
    simp only [Option.isSome_none, Bool.false_eq_true, if_false]
    rw [if_pos hmem]
    exact ih (fun x hx => h x (by simp [hx]))

lemma makedirs_ok {ω : Type} (p : String) (fs : FS ω)
    (h : ∀ a ∈ ancestors (dirname p), fs.files.lookup a = none) :
    ∃ fs', LocalFileMixin.makedirs p fs = .ok fs' ∧ fs'.files = fs.files ∧
      ∀ x, x ∈ fs'.dirs ↔ (x ∈ fs.dirs ∨ x ∈ ancestors (dirname p)) := by
  by_cases hd : dirname p = ""
  · refine ⟨fs, ?_, rfl, fun x => ?_⟩
    · simp [LocalFileMixin.makedirs, hd]
    · simp [hd, ancestors_empty]
  · obtain ⟨fs', h1, h2, h3⟩ := mkdirAll_ok (ancestors (dirname p)) fs h
    exact ⟨fs', by simp [LocalFileMixin.makedirs, hd, osMakedirs, h1], h2, h3⟩

lemma makedirs_noop {ω : Type} (p : String) (fs : FS ω)
    (h : ∀ a ∈ ancestors (dirname p), fs.files.lookup a = none ∧ a ∈ fs.dirs) :
    LocalFileMixin.makedirs p fs = .ok fs := by
  by_cases hd : dirname p = ""
  · simp [LocalFileMixin.makedirs, hd]
  · simp [LocalFileMixin.makedirs, hd, osMakedirs, mkdirAll_noop _ fs h]

/- Helper lemma relating the Boolean set-equality test on column lists to
equality of the corresponding finite sets. -/

lemma listSetEq_iff_toFinset (xs ys : List String) :
    listSetEq xs ys = true ↔ xs.toFinset = ys.toFinset := by
  simp only [listSetEq, Bool.and_eq_true, List.all_eq_true, Finset.ext_iff,
    List.mem_toFinset]
  constructor
  · rintro ⟨h1, h2⟩ a
    constructor
    · intro ha; have := h1 a ha; simpa using this
    · intro ha; have := h2 a ha; simpa using this
  · intro h
    constructor
    · intro a ha; simpa using (h a).mp ha
    · intro a ha; simpa using (h a).mpr ha

/-- Claim C1: for every resource, context and data value, `save` runs the
registered assertions against the data before resolving the path and before
delegating to the kind's save: if the assertion pipeline fails with `e`,
the whole operation fails with `e` (for every context, even one that would
not resolve), the backing store is unchanged, and a subsequent existence
check observes the same store as before; if the pipeline succeeds and the
path resolves, the operation is exactly the kind's save at that path. -/
theorem claim_C1 {D ω : Type} (r : Resource D ω) (d : D) (ctx : Context)
    (fs : FS ω) :
    (∀ e, assert_integrity r.assertions d = .error e →
      r.saveCtx d ctx fs = .error e ∧
      r.saveStore d ctx fs = fs ∧
      r.checkCtx ctx (r.saveStore d ctx fs) = r.checkCtx ctx fs) ∧
    (assert_integrity r.assertions d = .ok () →
      ∀ p, r.loc.format ctx = .ok p → r.saveCtx d ctx fs = r.save p d fs) := by
  constructor
  · intro e he
    have hs : r.saveCtx d ctx fs = .error e := by
      unfold Resource.saveCtx
      rw [he]
      rfl
    refine ⟨hs, ?_, ?_⟩
    · simp [Resource.saveStore, hs]
    · simp [Resource.saveStore, hs]
  · intro h p hp
    unfold Resource.saveCtx
    rw [h, hp]
    rfl

theorem claim_C1_witness :
    (Pickle.make "r" [] [fun (_ : Nat) => .error (.assertionError "bad")]).saveCtx
        7 [] { files := [], dirs := [] } = .error (.assertionError "bad") ∧
    (Pickle.make "r" [] [fun (_ : Nat) => .error (.assertionError "bad")]).saveStore
        7 [] { files := [], dirs := [] } = { files := [], dirs := [] } ∧
    (Pickle.make "r" [] [fun (_ : Nat) => .error (.assertionError "bad")]).checkCtx []
        ((Pickle.make "r" [] [fun (_ : Nat) =>
          .error (.assertionError "bad")]).saveStore 7 [] { files := [], dirs := [] })
      = (Pickle.make "r" [] [fun (_ : Nat) =>
          .error (.assertionError "bad")]).checkCtx [] { files := [], dirs := [] } :=
  (claim_C1 (Pickle.make "r" [] [fun (_ : Nat) => .error (.assertionError "bad")])
    7 [] { files := [], dirs := [] }).1 (.assertionError "bad") rfl

/-- Claim C3 (code bug): the added column assertion of a tabular resource
with declared columns passes exactly when the data's column set equals the
declared set (order-insensitive exact equality) — that part holds — but on
failure the source does not raise an integrity error reporting the present
and expected column sets: its assertion-message expression calls `set`
with two arguments, so evaluating the message raises
`TypeError("set expected at most 1 argument, got 2")` instead.  The second
conjunct evaluates the embedded code at the failing input (declared
columns `a`,`b`; data columns `a`,`c`). -/
theorem claim_C3 :
    (∀ (n : String) (cs : List String) (df : DF),
      PandasDF.assert_columns n (some cs) df = .ok () ↔
        df.columns.toFinset = cs.toFinset) ∧
    PandasDF.assert_columns "r" (some ["a", "b"])
        { columns := ["a", "c"], rows := [["1", "2"]] } =
      .error (.typeError "set expected at most 1 argument, got 2") := by
  constructor
  · intro n cs df
    rw [PandasDF.assert_columns]
    by_cases h : listSetEq df.columns cs = true
    · simp only [h, if_true]
      simp [(listSetEq_iff_toFinset _ _).mp h]
    · simp only [h, if_false]
      simp only [Bool.false_eq_true] at h
      constructor
      · intro he; cases he
      · intro hf; exact absurd ((listSetEq_iff_toFinset _ _).mpr hf) h
  · rfl

/-- Claim C4: resolving the location template against a context fails with
a `KeyError` (the `MissingContextKey` of the spec) exactly when some
placeholder key is absent from the context; the error names an absent
placeholder; when every placeholder is present, resolution succeeds and
substitutes each placeholder with its context value; and the result
depends only on the values of the placeholder keys, so extra unused
context keys are ignored (the function is pure by construction). -/
theorem claim_C4 (t : Template) (c : Context) :
    ((∃ s, t.format c = .ok s) ↔
      ∀ k ∈ t.placeholders, (c.lookup k).isSome = true) ∧
    (∀ e, t.format c = .error e →
      ∃ k, k ∈ t.placeholders ∧ c.lookup k = none ∧ e = .keyError k) ∧
    ((∀ k ∈ t.placeholders, (c.lookup k).isSome = true) →
      t.format c = .ok (t.render (fun k => (c.lookup k).getD ""))) ∧
    (∀ c' : Context, (∀ k ∈ t.placeholders, c'.lookup k = c.lookup k) →
      t.format c' = t.format c) := by
  refine ⟨⟨?_, ?_⟩, format_error_elim t c, format_ok_of_all_present t c,
    fun c' h => format_agree t c c' h⟩
  · rintro ⟨s, hs⟩
    exact all_present_of_format_ok t c s hs
  · intro h
    exact ⟨_, format_ok_of_all_present t c h⟩

theorem claim_C4_witness :
    Template.format [Seg.lit "data/", Seg.ph "run_id", Seg.lit ".csv"]
      [("run_id", "7"), ("unused", "x")] = .ok "data/7.csv" :=
  (claim_C4 [Seg.lit "data/", Seg.ph "run_id", Seg.lit ".csv"]
    [("run_id", "7"), ("unused", "x")]).2.2.1 (by decide)

/-- Claim C10: a tabular resource constructed with no declared columns gets
an automatically added column assertion that accepts every data value, so
neither load nor save can fail with a column mismatch; the assertion is
placed first in the assertion sequence, before every caller-supplied
assertion, and the integrity pipeline then behaves exactly as the
caller-supplied assertions alone. -/
theorem claim_C10 {ω : Type} (n : String) (loc : Template)
    (as : List (DF → Except PyError Unit)) (d : DF) :
    (PandasDF.make n loc none as : Resource DF ω).assertions.head? =
      some (PandasDF.assert_columns n none) ∧
    PandasDF.assert_columns n none d = .ok () ∧
    assert_integrity (PandasDF.make n loc none as : Resource DF ω).assertions d =
      assert_integrity as d ∧
    (PandasCSV.make n loc none as).assertions =
      PandasDF.assert_columns n none :: as := by
  exact ⟨rfl, rfl, rfl, rfl⟩

lemma lookup_isSome_iff_exists {β : Type} (l : List (String × β)) (a : String) :
    (l.lookup a).isSome = true ↔ ∃ c, (a, c) ∈ l := by
  induction l with
  | nil => simp
  | cons kv t ih =>
    obtain ⟨k, v⟩ := kv
    rw [List.lookup_cons]
    by_cases hk : a = k
    · subst hk
      simp
    · have hb : (a == k) = false := by
        simp only [beq_eq_false_iff_ne, ne_eq]; exact hk
      rw [hb]
      simp only [List.mem_cons, Prod.mk.injEq]
      constructor
      · intro h
        obtain ⟨c, hc⟩ := ih.mp h
        exact ⟨c, Or.inr hc⟩
      · rintro ⟨c, hc | hc⟩
        · exact absurd hc.1 hk
        · exact ih.mpr ⟨c, hc⟩

/-- Claim C2 (amended): for every resource and every context whose
placeholders all resolve, `load` resolves the path, delegates to the
kind's load, then runs every registered assertion against the loaded data
in registration order; the first failing assertion aborts the operation
with the error that assertion raises (propagated unmodified — the wrapper
does not add the resource's name or the violated rule, which is the
amendment), and on success `load` returns the loaded data unchanged. -/
theorem claim_C2 {D ω : Type} (r : Resource D ω) (ctx : Context) (fs : FS ω)
    (p : String) (d : D) (hp : r.loc.format ctx = .ok p)
    (hl : r.load p fs = .ok d) :
    ((∀ a ∈ r.assertions, a d = .ok ()) → r.loadCtx ctx fs = .ok d) ∧
    (∀ (pre post : List (D → Except PyError Unit))
      (a : D → Except PyError Unit) (e : PyError),
      r.assertions = pre ++ a :: post → (∀ b ∈ pre, b d = .ok ()) →
      a d = .error e → r.loadCtx ctx fs = .error e) := by
  constructor
  · intro h
    unfold Resource.loadCtx
    rw [hp]
    show Except.bind (r.load p fs)
      (fun data => Except.bind (assert_integrity r.assertions data)
        (fun _ => Except.ok data)) = Except.ok d
    rw [hl]
    show Except.bind (assert_integrity r.assertions d)
      (fun _ => Except.ok d) = Except.ok d
    rw [assert_integrity_ok r.assertions d h]
    rfl
  · intro pre post a e hsplit hpre ha
    unfold Resource.loadCtx
    rw [hp]
    show Except.bind (r.load p fs)
      (fun data => Except.bind (assert_integrity r.assertions data)
        (fun _ => Except.ok data)) = Except.error e
    rw [hl]
    show Except.bind (assert_integrity r.assertions d)
      (fun _ => Except.ok d) = Except.error e
    rw [hsplit, assert_integrity_fail pre post a d e hpre ha]
    rfl

theorem claim_C2_witness :
    (Pickle.make "r1" []
        [fun (x : Nat) => if x = 7 then .ok () else .error (.assertionError "x")]).loadCtx
      [] { files := [("", 7)], dirs := [] } = .ok 7 :=
  (claim_C2 (Pickle.make "r1" []
      [fun (x : Nat) => if x = 7 then .ok () else .error (.assertionError "x")])
    [] { files := [("", 7)], dirs := [] } "" 7 rfl rfl).1 (by
      intro a ha
      simp only [Pickle.make, Resource.base, List.mem_singleton] at ha
      subst ha
      rfl)

/-- Claim C2, counterexample to the original wording: the original claim
says the first failing assertion aborts `load` with an error that names
the resource and the violated rule.  Here a resource named `r1` (with a
resolvable context and loadable data) aborts with the failing assertion's
own error, whose message does not contain the resource name `r1` at all
(formalized: the name is not a substring of the abort error's message). -/
theorem claim_C2_counterexample :
    (Pickle.make "r1" [] [fun (_ : Nat) => .error (.assertionError "bad")]).loadCtx
        [] { files := [("", 7)], dirs := [] } = .error (.assertionError "bad") ∧
    ¬ ("r1".toList <:+: (PyError.assertionError "bad").message.toList) := by
  exact ⟨rfl, by decide⟩

/-- Claim C7: for every resource composing the local-file capability, and
every context resolving to a path holding no regular file, `delete` fails
with a backend I/O error and the store is unchanged; and since a
successful delete removes the file, deleting twice in a row with the same
context fails the second time (on a well-formed store). -/
theorem claim_C7 {D ω : Type} (r : Resource D ω) (ctx : Context) (p : String)
    (fs : FS ω) (hdel : r.delete = fun path fs => LocalFileMixin.delete path fs)
    (hp : r.loc.format ctx = .ok p) :
    (fs.files.lookup p = none →
      ∃ e, r.deleteCtx ctx fs = .error e ∧ e.isIOError = true ∧
        r.deleteStore ctx fs = fs) ∧
    (FS.WF fs → ∀ fs', r.deleteCtx ctx fs = .ok fs' →
      ∃ e, r.deleteCtx ctx fs' = .error e ∧ e.isIOError = true) := by
  have hdc : ∀ g : FS ω, r.deleteCtx ctx g = osRemove p g := by
    intro g
    unfold Resource.deleteCtx
    rw [hp]
    show Except.bind (Except.ok p) _ = _
    rw [show Except.bind (Except.ok p) (fun path => r.delete path g) = r.delete p g from rfl]
    rw [hdel]
    rfl
  constructor
  · intro hnone
    have hrem : osRemove p fs = if p ∈ fs.dirs then
        .error (.isADirectoryError p) else .error (.fileNotFoundError p) := by
      unfold osRemove
      rw [hnone]
      rfl
    by_cases hd : p ∈ fs.dirs
    · refine ⟨.isADirectoryError p, ?_, rfl, ?_⟩
      · rw [hdc, hrem, if_pos hd]
      · unfold Resource.deleteStore
        rw [hdc, hrem, if_pos hd]
    · refine ⟨.fileNotFoundError p, ?_, rfl, ?_⟩
      · rw [hdc, hrem, if_neg hd]
      · unfold Resource.deleteStore
        rw [hdc, hrem, if_neg hd]
  · intro hwf fs' hok
    rw [hdc] at hok
    unfold osRemove at hok
    by_cases hsome : (fs.files.lookup p).isSome = true
    · rw [if_pos hsome] at hok
      have hfs' : fs' = { fs with files := fs.files.eraseP (fun kv => kv.1 == p) } := by
        cases hok
        rfl
      have hnone' : fs'.files.lookup p = none := by
        rw [hfs']
        exact lookup_eraseP_self fs.files p hwf.1
      have hnd' : p ∉ fs'.dirs := by
        rw [hfs']
        intro hmem
        have := hwf.2.2 p hmem
        rw [this] at hsome
        cases hsome
      refine ⟨.fileNotFoundError p, ?_, rfl⟩
      rw [hdc]
      unfold osRemove
      rw [hnone']
      simp only [Option.isSome_none, Bool.false_eq_true, if_false]
      rw [if_neg hnd']
    · rw [if_neg hsome] at hok
      by_cases hd : p ∈ fs.dirs
      · rw [if_pos hd] at hok; cases hok
      · rw [if_neg hd] at hok; cases hok

theorem claim_C7_witness :
    (∃ e, (Pickle.make "r" [Seg.ph "k"] []).deleteCtx (D := Nat) [("k", "f")]
        { files := [], dirs := [] } = .error e ∧ e.isIOError = true ∧
      (Pickle.make "r" [Seg.ph "k"] []).deleteStore (D := Nat) [("k", "f")]
        { files := [], dirs := [] } = { files := [], dirs := [] }) ∧
    (∃ e, (Pickle.make "r" [Seg.ph "k"] []).deleteCtx (D := Nat) [("k", "f")]
        { files := [], dirs := [] } = .error e ∧ e.isIOError = true) := by
  have h := claim_C7 (Pickle.make "r" [Seg.ph "k"] [] : Resource Nat Nat)
    [("k", "f")] "f" { files := [], dirs := [] } rfl rfl
  have h1 := h.1 rfl
  exact ⟨h1, by obtain ⟨e, he1, he2, _⟩ := h1; exact ⟨e, he1, he2⟩⟩

/-- Claim C8: for every resource composing the local-file capability and a
resolvable context, the existence check never throws — it always returns a
Boolean — and it returns `true` exactly when a regular file exists at the
resolved path; in particular it returns `false` for a missing path and
`false` when the path names a directory (on a well-formed store). -/
theorem claim_C8 {D ω : Type} (r : Resource D ω) (ctx : Context) (p : String)
    (fs : FS ω) (hchk : r.check = fun path fs => LocalFileMixin.check path fs)
    (hp : r.loc.format ctx = .ok p) :
    (r.checkCtx ctx fs = .ok (fs.isFile p)) ∧
    (fs.isFile p = true ↔ ∃ c, (p, c) ∈ fs.files) ∧
    (fs.files.lookup p = none → r.checkCtx ctx fs = .ok false) ∧
    (FS.WF fs → p ∈ fs.dirs → r.checkCtx ctx fs = .ok false) := by
  have hcc : r.checkCtx ctx fs = .ok (fs.isFile p) := by
    unfold Resource.checkCtx
    rw [hp]
    show Except.bind (Except.ok p) _ = _
    rw [show Except.bind (Except.ok p) (fun path => r.check path fs) = r.check p fs from rfl]
    rw [hchk]
    rfl
  refine ⟨hcc, lookup_isSome_iff_exists fs.files p, ?_, ?_⟩
  · intro hnone
    rw [hcc]
    unfold FS.isFile
    rw [hnone]
    rfl
  · intro hwf hd
    rw [hcc]
    unfold FS.isFile
    rw [hwf.2.2 p hd]
    rfl

theorem claim_C8_witness :
    ((Pickle.make "r" [Seg.ph "k"] []).checkCtx (D := Nat) [("k", "d")]
        { files := [("f", 5)], dirs := ["d"] } =
      .ok ((FS.mk [("f", 5)] ["d"]).isFile "d")) ∧
    ((FS.mk [("f", (5 : Nat))] ["d"]).isFile "d" = true ↔
      ∃ c, ("d", c) ∈ [("f", (5 : Nat))]) ∧
    (Pickle.make "r" [Seg.ph "k"] []).checkCtx (D := Nat) [("k", "d")]
        { files := [("f", 5)], dirs := ["d"] } = .ok false := by
  have h := claim_C8 (Pickle.make "r" [Seg.ph "k"] [] : Resource Nat Nat)
    [("k", "d")] "d" { files := [("f", 5)], dirs := ["d"] } rfl rfl
  exact ⟨h.1, h.2.1, h.2.2.2 (by decide) (by decide)⟩

/-- Claim C9: the directory-ensuring helper is a no-op when the path has
no directory component; otherwise, when no regular file occupies an
ancestor, it succeeds, leaves the files untouched, makes the resulting
directory set exactly the old directories plus the ancestor directories of
the path's directory component (already-existing ones are not duplicated,
and nothing else is created), and invoking it a second time returns the
same state unchanged (idempotent, create-if-absent). -/
theorem claim_C9 {ω : Type} (p : String) (fs : FS ω) :
    (dirname p = "" → LocalFileMixin.makedirs p fs = .ok fs) ∧
    ((∀ a ∈ ancestors (dirname p), fs.files.lookup a = none) →
      ∃ fs', LocalFileMixin.makedirs p fs = .ok fs' ∧
        fs'.files = fs.files ∧
        (∀ x, x ∈ fs'.dirs ↔ (x ∈ fs.dirs ∨ x ∈ ancestors (dirname p))) ∧
        LocalFileMixin.makedirs p fs' = .ok fs') := by
  constructor
  · intro h
    simp [LocalFileMixin.makedirs, h]
  · intro h
    obtain ⟨fs', h1, h2, h3⟩ := makedirs_ok p fs h
    refine ⟨fs', h1, h2, h3, ?_⟩
    apply makedirs_noop
    intro a ha
    refine ⟨?_, (h3 a).mpr (Or.inr ha)⟩
    rw [h2]
    exact h a ha

theorem claim_C9_witness :
    ∃ fs', LocalFileMixin.makedirs "a/b/c.txt"
        (FS.mk ([] : List (String × Nat)) ["z"]) = .ok fs' ∧
      fs'.files = [] ∧
      (∀ x, x ∈ fs'.dirs ↔
        (x ∈ ["z"] ∨ x ∈ ancestors (dirname "a/b/c.txt"))) ∧
      LocalFileMixin.makedirs "a/b/c.txt" fs' = .ok fs' :=
  (claim_C9 "a/b/c.txt" (FS.mk ([] : List (String × Nat)) ["z"])).2 (by decide)

/-- Claim C6: for a tabular resource with declared columns `a`,`b` and a
tabular value whose column set is exactly that, saving and then loading
with the same resolvable context succeeds and returns the value itself —
so the column set still equals the declared set, every cell value and the
row order are preserved, and no implicit row-index column is added.  The
store-side hypotheses say the resolved path is not an existing directory,
is not one of the directories being created, and no regular file occupies
an ancestor directory of the path. -/
theorem claim_C6 (n : String) (loc : Template) (ctx : Context) (p : String)
    (df : DF) (fs : FS CSVData)
    (hp : loc.format ctx = .ok p)
    (hcols : df.columns.toFinset = (["a", "b"] : List String).toFinset)
    (hnd : p ∉ fs.dirs)
    (hna : p ∉ ancestors (dirname p))
    (hanc : ∀ a ∈ ancestors (dirname p), fs.files.lookup a = none) :
    ∃ fs', (PandasCSV.make n loc (some ["a", "b"]) []).saveCtx df ctx fs = .ok fs' ∧
      (PandasCSV.make n loc (some ["a", "b"]) []).loadCtx ctx fs' = .ok df := by
  have hac : PandasDF.assert_columns n (some ["a", "b"]) df = .ok () := by
    rw [PandasDF.assert_columns]
    rw [if_pos ((listSetEq_iff_toFinset df.columns ["a", "b"]).mpr hcols)]
  have hai : assert_integrity
      (PandasCSV.make n loc (some ["a", "b"]) []).assertions df = .ok () := by
    show assert_integrity (PandasDF.assert_columns n (some ["a", "b"]) :: []) df = .ok ()
    rw [assert_integrity, hac]
    rfl
  obtain ⟨fs₁, hm, hfiles, hdirs⟩ := makedirs_ok p fs hanc
  have hp1 : p ∉ fs₁.dirs := by
    intro hmem
    rcases (hdirs p).mp hmem with h | h
    · exact hnd h
    · exact hna h
  have hw : fs₁.write p (to_csv df false) =
      .ok (FS.mk ((p, to_csv df false) ::
        fs₁.files.eraseP (fun kv => kv.1 == p)) fs₁.dirs) := by
    unfold FS.write
    rw [if_neg hp1]
  refine ⟨FS.mk ((p, to_csv df false) ::
    fs₁.files.eraseP (fun kv => kv.1 == p)) fs₁.dirs, ?_, ?_⟩
  · unfold Resource.saveCtx
    rw [hai]
    show Except.bind (loc.format ctx)
      (fun path => PandasCSV.save path df fs) = _
    rw [hp]
    show PandasCSV.save p df fs = _
    unfold PandasCSV.save
    rw [hm]
    show fs₁.write p (to_csv df false) = _
    rw [hw]
  · have hlk : (FS.mk ((p, to_csv df false) ::
        fs₁.files.eraseP (fun kv => kv.1 == p)) fs₁.dirs).files.lookup p =
        some (to_csv df false) := by
      show List.lookup p ((p, to_csv df false) ::
        fs₁.files.eraseP (fun kv => kv.1 == p)) = some (to_csv df false)
      rw [List.lookup_cons]
      rw [show (p == p) = true from beq_self_eq_true p]
    have hload : PandasCSV.load p (FS.mk ((p, to_csv df false) ::
        fs₁.files.eraseP (fun kv => kv.1 == p)) fs₁.dirs) = .ok df := by
      unfold PandasCSV.load
      rw [hlk]
      rfl
    unfold Resource.loadCtx
    show Except.bind (loc.format ctx) _ = _
    rw [hp]
    show Except.bind (PandasCSV.load p (FS.mk ((p, to_csv df false) ::
        fs₁.files.eraseP (fun kv => kv.1 == p)) fs₁.dirs))
      (fun data => Except.bind (assert_integrity
        (PandasCSV.make n loc (some ["a", "b"]) []).assertions data)
        (fun _ => Except.ok data)) = Except.ok df
    rw [hload]
    show Except.bind (assert_integrity
      (PandasCSV.make n loc (some ["a", "b"]) []).assertions df)
      (fun _ => Except.ok df) = Except.ok df
    rw [hai]
    rfl

theorem claim_C6_witness :
    ∃ fs', (PandasCSV.make "t" [Seg.lit "out/", Seg.ph "run", Seg.lit ".csv"]
        (some ["a", "b"]) []).saveCtx
        { columns := ["a", "b"], rows := [["1", "2"], ["3", "4"]] }
        [("run", "1")] { files := [], dirs := [] } = .ok fs' ∧
      (PandasCSV.make "t" [Seg.lit "out/", Seg.ph "run", Seg.lit ".csv"]
        (some ["a", "b"]) []).loadCtx [("run", "1")] fs' =
        .ok { columns := ["a", "b"], rows := [["1", "2"], ["3", "4"]] } :=
  claim_C6 "t" [Seg.lit "out/", Seg.ph "run", Seg.lit ".csv"] [("run", "1")]
    "out/1.csv" { columns := ["a", "b"], rows := [["1", "2"], ["3", "4"]] }
    { files := [], dirs := [] } rfl (by decide) (by decide) (by decide)
    (by decide)

lemma str_toList_append (a b : String) :
    (a ++ b).toList = a.toList ++ b.toList := by
  cases a; cases b; rfl

lemma toList_notImplementedMsg (op n : String) :
    (notImplementedMsg op n).toList =
      "Could not *".toList ++ op.toList ++ "* resource <".toList ++ n.toList ++
      "> (and possibly others), ".toList ++
      "because the resource class has no implementation of the `".toList ++
      op.toList ++ "` method.".toList := by
  simp [notImplementedMsg, str_toList_append, List.append_assoc]

lemma notImplementedMsg_inj_op (n o₁ o₂ : String)
    (h : notImplementedMsg o₁ n = notImplementedMsg o₂ n) : o₁ = o₂ := by
  have hl := congrArg String.toList h
  rw [toList_notImplementedMsg, toList_notImplementedMsg] at hl
  have hl' := List.append_cancel_right hl
  have hlen : o₁.toList.length = o₂.toList.length := by
    have hlc := congrArg List.length hl'
    simp only [List.length_append] at hlc
    omega
  obtain ⟨_, h1⟩ := List.append_inj' hl' hlen
  cases o₁
  cases o₂
  rw [show String.toList = String.data from rfl] at h1
  simp only at h1
  rw [h1]

/-- Claim C5: on a resource kind that supplies no implementation of a
capability (the base `Resource` stubs), each of the four operations fails,
under a resolvable context, with a `NotImplementedError` (the spec's
`UnsupportedOperation`) carrying the stub message for that operation; this
error is not an I/O error; the message contains the resource's name and
the name of the failed capability as substrings; and the stub message is
injective in the capability name, so distinct capabilities yield distinct
errors and the error identifies which capability failed.  (For `save`, the assertion pipeline
must pass first, since `_save` runs assertions before delegating.) -/
theorem claim_C5 {D ω : Type} (n : String) (loc : Template)
    (as : List (D → Except PyError Unit)) (ctx : Context) (p : String)
    (fs : FS ω) (d : D) (hp : loc.format ctx = .ok p) :
    ((Resource.base n loc as : Resource D ω).checkCtx ctx fs =
      .error (.notImplementedError (notImplementedMsg "check" n))) ∧
    ((Resource.base n loc as : Resource D ω).deleteCtx ctx fs =
      .error (.notImplementedError (notImplementedMsg "delete" n))) ∧
    ((Resource.base n loc as : Resource D ω).loadCtx ctx fs =
      .error (.notImplementedError (notImplementedMsg "load" n))) ∧
    (assert_integrity as d = .ok () →
      (Resource.base n loc as : Resource D ω).saveCtx d ctx fs =
        .error (.notImplementedError (notImplementedMsg "save" n))) ∧
    (∀ op, (PyError.notImplementedError (notImplementedMsg op n)).isIOError
      = false) ∧
    (∀ op, n.toList <:+: (notImplementedMsg op n).toList ∧
      op.toList <:+: (notImplementedMsg op n).toList) ∧
    (∀ o₁ o₂ : String, o₁ ≠ o₂ →
      notImplementedMsg o₁ n ≠ notImplementedMsg o₂ n) := by
  refine ⟨?_, ?_, ?_, ?_, fun op => rfl, ?_, ?_⟩
  · unfold Resource.checkCtx
    show Except.bind (loc.format ctx)
      (fun path => (Resource.base n loc as : Resource D ω).check path fs) = _
    rw [hp]
    rfl
  · unfold Resource.deleteCtx
    show Except.bind (loc.format ctx)
      (fun path => (Resource.base n loc as : Resource D ω).delete path fs) = _
    rw [hp]
    rfl
  · unfold Resource.loadCtx
    show Except.bind (loc.format ctx)
      (fun path => Except.bind ((Resource.base n loc as : Resource D ω).load path fs)
        (fun data => Except.bind (assert_integrity as data)
          (fun _ => Except.ok data))) = _
    rw [hp]
    rfl
  · intro hai
    unfold Resource.saveCtx
    show Except.bind (assert_integrity as d)
      (fun _ => Except.bind (loc.format ctx)
        (fun path => (Resource.base n loc as : Resource D ω).save path d fs)) = _
    rw [hai, hp]
    rfl
  · intro op
    constructor
    · rw [toList_notImplementedMsg]
      refine ⟨"Could not *".toList ++ op.toList ++ "* resource <".toList,
        "> (and possibly others), ".toList ++
        "because the resource class has no implementation of the `".toList ++
        op.toList ++ "` method.".toList, ?_⟩
      simp [List.append_assoc]
    · rw [toList_notImplementedMsg]
      refine ⟨"Could not *".toList,
        "* resource <".toList ++ n.toList ++
        "> (and possibly others), ".toList ++
        "because the resource class has no implementation of the `".toList ++
        op.toList ++ "` method.".toList, ?_⟩
      simp [List.append_assoc]
  · intro o₁ o₂ hne h
    exact hne (notImplementedMsg_inj_op n o₁ o₂ h)

theorem claim_C5_witness :
    ((Resource.base "nores" [] [] : Resource Nat Nat).checkCtx []
        { files := [], dirs := [] } =
      .error (.notImplementedError (notImplementedMsg "check" "nores"))) ∧
    ((Resource.base "nores" [] [] : Resource Nat Nat).deleteCtx []
        { files := [], dirs := [] } =
      .error (.notImplementedError (notImplementedMsg "delete" "nores"))) ∧
    ((Resource.base "nores" [] [] : Resource Nat Nat).loadCtx []
        { files := [], dirs := [] } =
      .error (.notImplementedError (notImplementedMsg "load" "nores"))) ∧
    ((Resource.base "nores" [] [] : Resource Nat Nat).saveCtx 0 []
        { files := [], dirs := [] } =
      .error (.notImplementedError (notImplementedMsg "save" "nores"))) ∧
    notImplementedMsg "load" "nores" ≠ notImplementedMsg "save" "nores" := by
  have h := claim_C5 (D := Nat) (ω := Nat) "nores" [] [] [] ""
    { files := [], dirs := [] } 0 rfl
  exact ⟨h.1, h.2.1, h.2.2.1, h.2.2.2.1 rfl,
    h.2.2.2.2.2.2 "load" "save" (by decide)⟩

end Dalymi
